import Mathlib

/-!
# Verification of revm core components

A shallow embedding, in Lean 4, of the parts of the `revm` EVM implementation
that the specification's claims are about:

* the signed 256-bit helpers of `crates/interpreter/src/instructions/i256.rs`,
* the shift handlers of `crates/interpreter/src/instructions/bitwise.rs`,
* `SIGNEXTEND` from `crates/interpreter/src/instructions/arithmetic.rs`,
* the `JUMP` destination check of `crates/interpreter/src/instructions/control.rs`
  together with `JumpMap::is_valid` of
  `crates/primitives/src/bytecode/legacy/jump_map.rs`,
* `calculate_gas_refund` of `crates/revm/src/handler/mainnet.rs`,
* the operand stack of `crates/revm/src/machine/stack.rs`,
* the journaled state of `crates/revm/src/journaled_state.rs`.

256-bit machine words are embedded as `Nat` together with explicit reduction
modulo `2 ^ 256`; 64-bit quantities likewise with `2 ^ 64`.  Signed views use
`Int` via an explicit two's-complement conversion.
-/

namespace Revm

/-- The modulus of 256-bit machine words. -/
def U256_MOD : Nat := 2 ^ 256

/-- `U256::MAX`, the all-ones 256-bit word. -/
def U256_MAX : Nat := U256_MOD - 1

/-- `MIN_NEGATIVE_VALUE` from `i256.rs`: limbs `[0, 0, 0, 0x8000000000000000]`,
i.e. the word `2 ^ 255`, the most negative two's-complement value. -/
def MIN_NEGATIVE_VALUE : Nat := 2 ^ 255

/-- `MAX_POSITIVE_VALUE` from `i256.rs`: the word `2 ^ 255 - 1`. -/
def MAX_POSITIVE_VALUE : Nat := 2 ^ 255 - 1

/-- `Sign` from `i256.rs`. -/
inductive Sign where
  | Minus
  | Zero
  | Plus
deriving DecidableEq, Repr

/-- `i256_sign` from `i256.rs`: `Minus` when bit 255 is set, otherwise
`Zero`/`Plus` according to the zero test (the source transmutes `!is_zero()`). -/
def i256_sign (val : Nat) : Sign :=
  if val.testBit 255 then .Minus
  else if val = 0 then .Zero
  else .Plus

/-- `two_compl` from `i256.rs`: `wrapping_neg` on a 256-bit word. -/
def two_compl (op : Nat) : Nat :=
  (U256_MOD - op % U256_MOD) % U256_MOD

/-- `i256_sign_compl` from `i256.rs`: the sign of the word, paired with the
word replaced by its two's complement when the sign is `Minus` (the source
mutates its argument in place). -/
def i256_sign_compl (val : Nat) : Sign × Nat :=
  let sign := i256_sign val
  (sign, if sign = .Minus then two_compl val else val)

/-- `u256_remove_sign` from `i256.rs`: clears bit 255 by masking the top limb
with `0x7FFFFFFFFFFFFFFF`; on words `< 2 ^ 256` this is reduction mod `2 ^ 255`. -/
def u256_remove_sign (val : Nat) : Nat :=
  val % 2 ^ 255

/-- `i256_div` from `i256.rs` (the `SDIV` core).  The two `i256_sign_compl`
calls are inlined as "sign, plus conditional two's complement" exactly as
`i256_sign_compl` computes them. -/
def i256_div (first second : Nat) : Nat :=
  let second_sign := i256_sign second
  let second1 := if second_sign = .Minus then two_compl second else second
  if second_sign = .Zero then 0
  else
    let first_sign := i256_sign first
    let first1 := if first_sign = .Minus then two_compl first else first
    if first1 = MIN_NEGATIVE_VALUE ∧ second1 = 1 then two_compl MIN_NEGATIVE_VALUE
    else
      let d := u256_remove_sign (first1 / second1)
      if (first_sign = .Minus ∧ second_sign ≠ .Minus) ∨
         (second_sign = .Minus ∧ first_sign ≠ .Minus) then
        two_compl d
      else d

/-- The two's-complement reading of a 256-bit word as an integer. -/
def toI256 (x : Nat) : Int :=
  if x < 2 ^ 255 then (x : Int) else (x : Int) - 2 ^ 256

/-- An integer reduced back into a 256-bit word (two's-complement encoding). -/
def ofI256 (z : Int) : Nat :=
  (z % ((2 : Int) ^ 256)).toNat

/-- `SDIV` as the specification words it: `0` when `b = 0`; `MIN` for
`MIN / -1`; otherwise magnitude `|a| / |b|` carrying the sign
`sign(a) xor sign(b)`.  Written from the spec text, to be compared with
`i256_div` above. -/
def i256_div_spec (a b : Nat) : Nat :=
  if toI256 b = 0 then 0
  else if a = MIN_NEGATIVE_VALUE ∧ toI256 b = -1 then MIN_NEGATIVE_VALUE
  else
    let q : Nat := (toI256 a).natAbs / (toI256 b).natAbs
    if (toI256 a < 0 ∧ 0 ≤ toI256 b) ∨ (toI256 b < 0 ∧ 0 ≤ toI256 a) then
      ofI256 (-(q : Int))
    else q

/-! ## Shift handlers (`bitwise.rs`) -/

/-- `as_usize_saturated` from `bitwise.rs`: a `U256` saturated to `usize`
(64-bit): the low limb when the upper limbs are zero, else `u64::MAX`. -/
def as_usize_saturated (v : Nat) : Nat :=
  if v < 2 ^ 64 then v else 2 ^ 64 - 1

/-- `ruint`'s wrapping `<<` on `U256` (used by `*op2 <<= shift` in `shl`):
bits shifted past position 255 are dropped; a shift of 256 or more gives 0. -/
def u256_wrapping_shl (x s : Nat) : Nat :=
  if 256 ≤ s then 0 else (x <<< s) % U256_MOD

/-- `ruint`'s wrapping `>>` on `U256`: a shift of 256 or more gives 0. -/
def u256_wrapping_shr (x s : Nat) : Nat :=
  if 256 ≤ s then 0 else x >>> s

/-- `wrapping_sub` on `U256`. -/
def u256_wrapping_sub (a b : Nat) : Nat :=
  (a % U256_MOD + (U256_MOD - b % U256_MOD)) % U256_MOD

/-- `wrapping_add` on `U256`. -/
def u256_wrapping_add (a b : Nat) : Nat :=
  (a + b) % U256_MOD

/-- The `shl` handler core from `bitwise.rs`: `op1` is the shift count (popped
first, from the top of the stack), `op2` the value. -/
def shl (op1 op2 : Nat) : Nat :=
  u256_wrapping_shl op2 (as_usize_saturated op1)

/-- The `shr` handler core from `bitwise.rs`. -/
def shr (op1 op2 : Nat) : Nat :=
  u256_wrapping_shr op2 (as_usize_saturated op1)

/-- The `sar` handler core from `bitwise.rs`: `op1` is the shift count, `op2`
the value.  `i256_sign_compl` is inlined (the source mutates `op2` to its
absolute value in place): `v` is the absolute value it leaves behind. -/
def sar (op1 op2 : Nat) : Nat :=
  let value_sign := i256_sign op2
  let v := if value_sign = .Minus then two_compl op2 else op2
  if value_sign = .Zero ∨ 255 ≤ op1 then
    match value_sign with
    | .Plus | .Zero => 0
    | .Minus => U256_MAX
  else
    match value_sign with
    | .Plus | .Zero => u256_wrapping_shr v op1
    | .Minus =>
        two_compl (u256_wrapping_add (u256_wrapping_shr (u256_wrapping_sub v 1) op1) 1)

/-- `SAR` as the specification words it: the two's-complement arithmetic right
shift of the value by `min(shift, 255)` bit positions, filling with the sign
bit (arithmetic shift on `Int` is exactly sign-filling). -/
def sar_min255_spec (shift value : Nat) : Nat :=
  ofI256 (toI256 value >>> ((min shift 255 : Nat) : Int))

/-- `SHL` as the claim words it: the value shifted left by `min(shift, 255)`
bit positions. -/
def shl_min255_claim (shift value : Nat) : Nat :=
  (value <<< min shift 255) % U256_MOD

/-! ## `SIGNEXTEND` (`arithmetic.rs`) -/

/-- Bitwise `!` on a `U256` word: complement within 256 bits. -/
def u256_not (x : Nat) : Nat :=
  x ^^^ U256_MAX

/-- The `signextend` handler core from `arithmetic.rs`: `op1` is the byte
index `x` (popped first), `op2` the word `y`.  When `op1 < 32` the low limb of
`op1` is `op1` itself, as in the source's `op1.as_limbs()[0]`. -/
def signextend (op1 op2 : Nat) : Nat :=
  if op1 < 32 then
    let bit_index := 8 * op1 + 7
    let bit := op2.testBit bit_index
    let mask := 2 ^ bit_index - 1
    if bit then op2 ||| u256_not mask else op2 &&& mask
  else op2

/-! ## `JUMP` (`control.rs` and `jump_map.rs`) -/

/-- `JumpMap` from `jump_map.rs`: a bit vector, embedded as a list of bits. -/
structure JumpMap where
  bits : List Bool
deriving DecidableEq, Repr

/-- `JumpMap::is_valid` from `jump_map.rs`: `pc < self.0.len() && self.0[pc]`
(the index is in bounds under the guard, so `getD` with default `false`
coincides with the source's indexing). -/
def JumpMap.is_valid (m : JumpMap) (pc : Nat) : Bool :=
  decide (pc < m.bits.length) && m.bits.getD pc false

/-- The analysed contract as far as `JUMP` consults it.  Per spec §4.9 the
JUMPDEST bitmap has one bit per code byte, so `jump_map.bits.length` is the
code length. -/
structure Contract where
  jump_map : JumpMap
deriving DecidableEq, Repr

/-- Modelled from the spec: `Contract::is_valid_jump` (its definition is not
under `src/`; only its caller in `control.rs` is) forwards to
`JumpMap::is_valid` on the analysed bytecode's bitmap. -/
def Contract.is_valid_jump (c : Contract) (dest : Nat) : Bool :=
  c.jump_map.is_valid dest

/-- `InstructionResult` variants used by the embedded handlers. -/
inductive InstructionResult where
  | InvalidJump
  | OutOfFund
  | OverflowPayment
  | FatalExternalError
deriving DecidableEq, Repr

/-- The `jump` handler from `control.rs`, from the point where the destination
word has been popped (gas already charged): `as_usize_or_fail!` fails with
`InvalidJump` when the word exceeds `usize::MAX` (64-bit platform); otherwise
the handler relocates the instruction pointer to offset `dest` exactly when
`is_valid_jump` holds, else sets `InvalidJump`.  `.ok` carries the new
instruction-pointer offset. -/
def jump (c : Contract) (dest : Nat) : Except InstructionResult Nat :=
  if 2 ^ 64 - 1 < dest then .error .InvalidJump
  else if c.is_valid_jump dest then .ok dest
  else .error .InvalidJump

/-! ## Gas refund (`handler/mainnet.rs`) -/

/-- The gas state, as far as `calculate_gas_refund` reads it.  Modelled from
the spec (§4.8): the `Gas` struct itself is not under `src/`; `limit` and
`remaining` are `u64`, `refunded` is `i64`. -/
structure Gas where
  limit : Nat
  remaining : Nat
  refunded : Int
deriving DecidableEq, Repr

/-- Modelled from the spec (§4.8): `Gas::spend() = limit - remaining`. -/
def Gas.spend (g : Gas) : Nat :=
  g.limit - g.remaining

/-- The `i64 as u64` cast. -/
def i64_as_u64 (x : Int) : Nat :=
  (x % 2 ^ 64).toNat

/-- `calculate_gas_refund` from `handler/mainnet.rs`.  `refund_disabled` is
`env.cfg.is_gas_refund_disabled()` and `london` is `SPEC::enabled(LONDON)`. -/
def calculate_gas_refund (refund_disabled london : Bool) (g : Gas) : Nat :=
  if refund_disabled then 0
  else
    let max_refund_quotient := if london then 5 else 2
    min (i64_as_u64 g.refunded) (g.spend / max_refund_quotient)

/-! ## Operand stack (`machine/stack.rs`) -/

/-- `Return` variants used by `machine/stack.rs`. -/
inductive Return where
  | StackUnderflow
  | StackOverflow
deriving DecidableEq, Repr

/-- `STACK_LIMIT` from `machine/stack.rs`. -/
def STACK_LIMIT : Nat := 1024

/-- `Stack::push`: the stack is a `Vec` pushed at the end; we embed it as a
list whose head is the top (the `Vec`'s end).  Errors leave the stack
unchanged, mirroring the untouched `&mut self` on early return. -/
def stackPush (s : List Nat) (value : Nat) : Option Return × List Nat :=
  if s.length + 1 > STACK_LIMIT then (some .StackOverflow, s)
  else (none, value :: s)

/-- `Stack::pop`: `Vec::pop` from the end (our list head), or
`StackUnderflow` on an empty stack. -/
def stackPop (s : List Nat) : Except Return Nat × List Nat :=
  match s with
  | [] => (.error .StackUnderflow, [])
  | x :: rest => (.ok x, rest)

/-- `Stack::dup::<N>`: underflow when fewer than `N` elements, overflow when a
push would exceed the limit, else pushes `data[len - N]` — the `N`-th element
from the top, i.e. index `n - 1` of our head-first list (in bounds under the
guard, so `getD` coincides with the source's indexing). -/
def stackDup (n : Nat) (s : List Nat) : Option Return × List Nat :=
  if s.length < n then (some .StackUnderflow, s)
  else if s.length + 1 > STACK_LIMIT then (some .StackOverflow, s)
  else (none, s.getD (n - 1) 0 :: s)

/-- `Stack::swap::<N>`: underflow when `len <= N`, else swaps `data[len - 1]`
with `data[len - 1 - N]` — indices `0` and `n` of our head-first list. -/
def stackSwap (n : Nat) (s : List Nat) : Option Return × List Nat :=
  if s.length ≤ n then (some .StackUnderflow, s)
  else (none, (s.set 0 (s.getD n 0)).set n (s.getD 0 0))

/-! ## Journaled state (`journaled_state.rs`)

Addresses (`B160`) are embedded as `Nat` below `2 ^ 160`; the hash-map `state`
as a function `Nat → Option Account`.  The journal `Vec<Vec<JournalEntry>>` is
embedded with the *newest* set at the head of the list, and entries inside a
set newest-first as well: the source pushes at the end of each `Vec` and
reverts iterating in reverse, which corresponds to processing our lists from
the front.  Balance/nonce arithmetic inside reverts uses `Nat` `+`/`-`
(the source's `u64`/`U256` operators, which do not over/underflow in states
the journal can produce).  The database is modelled as an infallible
`Nat → Option AccountInfo` (`Database::basic`); the `FatalExternalError`
path for database failures is therefore not exercised. -/

/-- Bytecode, as far as the journal needs it: the raw bytes.  `code_hash` is
assigned in lockstep with `code` at every modelled site (`set_code` and the
`CodeChange` revert both set `code_hash = code.hash()` exactly when they set
`code`), so it is not carried separately. -/
abbrev Bytecode := List Nat

/-- `AccountStatus` flags.  Modelled from the spec (§3): the bitflags type
lives in `revm_interpreter::primitives`, not under `src/`; the flags named
there are `Loaded` (the empty flag set), `LoadedAsNotExisting`, `Touched`,
`Created` and `SelfDestructed`. -/
structure AccountStatus where
  loaded_as_not_existing : Bool
  touched : Bool
  created : Bool
  selfdestructed : Bool
deriving DecidableEq, Repr

/-- `StorageSlot`: original (transaction-start) and present value. -/
structure StorageSlot where
  original_value : Nat
  present_value : Nat
deriving DecidableEq, Repr

/-- `AccountInfo`, as far as the journal manipulates it (`code_hash` tracks
`code`, see `Bytecode`). -/
structure AccountInfo where
  balance : Nat
  nonce : Nat
  code : Option Bytecode
deriving DecidableEq, Repr

/-- `Account`: info, per-account storage map, and status flags. -/
structure Account where
  info : AccountInfo
  storage : Nat → Option StorageSlot
  status : AccountStatus

/-- `Account::is_touched`. -/
def Account.is_touched (a : Account) : Bool :=
  a.status.touched

/-- `Account::touch`: set the `Touched` flag. -/
def Account.touch (a : Account) : Account :=
  { a with status := { a.status with touched := true } }

/-- `Account::new_not_existing` (modelled from the spec §3: default info with
the `LoadedAsNotExisting` flag). -/
def Account.new_not_existing : Account :=
  { info := { balance := 0, nonce := 0, code := none },
    storage := fun _ => none,
    status := ⟨true, false, false, false⟩ }

/-- `From<AccountInfo> for Account`: plain info, no flags set. -/
def Account.from_info (info : AccountInfo) : Account :=
  { info := info, storage := fun _ => none, status := ⟨false, false, false, false⟩ }

/-- `Log` (address, topics and data are irrelevant to the claims; only the
log vector's length matters to checkpoints). -/
structure Log where
  address : Nat
  data : List Nat
deriving DecidableEq, Repr

/-- `JournalEntry` from `journaled_state.rs`. -/
inductive JournalEntry where
  | AccountLoaded (address : Nat)
  | AccountDestroyed (address target : Nat) (was_destroyed : Bool) (had_balance : Nat)
  | AccountTouched (address : Nat)
  | BalanceTransfer (from_addr to_addr balance : Nat)
  | NonceChange (address : Nat)
  | StorageChange (address key : Nat) (had_value : Option Nat)
  | CodeChange (address : Nat) (had_code : Bytecode)

/-- `JournaledState` from `journaled_state.rs`. -/
structure JournaledState where
  state : Nat → Option Account
  logs : List Log
  depth : Nat
  journal : List (List JournalEntry)
  is_before_spurious_dragon : Bool
  num_of_precompiles : Nat

/-- `JournalCheckpoint`. -/
structure JournalCheckpoint where
  log_i : Nat
  journal_i : Nat
deriving DecidableEq, Repr

/-- `is_precompile` from `journaled_state.rs`: the first 18 bytes must be
zero (the address is below `2 ^ 16`), and then
`num.wrapping_sub(1) < num_of_precompiles as u16`. -/
def is_precompile (address : Nat) (num_of_precompiles : Nat) : Bool :=
  decide (address < 2 ^ 16) &&
    decide ((address + (2 ^ 16 - 1)) % 2 ^ 16 < num_of_precompiles % 2 ^ 16)

/-- `JournaledState::new`. -/
def JournaledState.new (num_of_precompiles : Nat) : JournaledState :=
  { state := fun _ => none,
    logs := [],
    journal := [[]],
    depth := 0,
    is_before_spurious_dragon := false,
    num_of_precompiles := num_of_precompiles }

/-- `JournaledState::new_legacy`. -/
def JournaledState.new_legacy (num_of_precompiles : Nat) : JournaledState :=
  { JournaledState.new num_of_precompiles with is_before_spurious_dragon := true }

/-- Push an entry onto the current (innermost) journal set, the source's
`journal.last_mut().unwrap().push(e)`.  The journal always holds at least one
set; the `[]` branch is unreachable. -/
def pushEntry (j : List (List JournalEntry)) (e : JournalEntry) :
    List (List JournalEntry) :=
  match j with
  | last :: rest => (e :: last) :: rest
  | [] => [[e]]

/-- Update the account stored at `address`, if any (the call sites unwrap a
`get_mut`; the account is present there, so the `none` case is unreachable). -/
def updateAccount (s : Nat → Option Account) (address : Nat) (f : Account → Account) :
    Nat → Option Account :=
  Function.update s address ((s address).map f)

/-- `JournaledState::touch_account` (also the body of the public `touch`,
whose `if let Some(account)` is this same presence test): journal
`AccountTouched` and set the flag, only if not already touched. -/
def JournaledState.touch_account (js : JournaledState) (address : Nat) : JournaledState :=
  match js.state address with
  | some account =>
      if account.is_touched then js
      else
        { js with
          journal := pushEntry js.journal (.AccountTouched address),
          state := Function.update js.state address (some account.touch) }
  | none => js

/-- `JournaledState::load_account`: on a vacant entry, build the account from
the database (or `new_not_existing`), journal `AccountLoaded`, and report
cold unless the address is a precompile. -/
def JournaledState.load_account (js : JournaledState) (address : Nat)
    (db : Nat → Option AccountInfo) : (Account × Bool) × JournaledState :=
  match js.state address with
  | some account => ((account, false), js)
  | none =>
      let account :=
        match db address with
        | some info => Account.from_info info
        | none => Account.new_not_existing
      let is_cold := ! is_precompile address js.num_of_precompiles
      ((account, is_cold),
        { js with
          journal := pushEntry js.journal (.AccountLoaded address),
          state := Function.update js.state address (some account) })

/-- Journal one entry: the source's
`self.journal.last_mut().unwrap().push(entry)`. -/
def pushJournal (js : JournaledState) (e : JournalEntry) : JournaledState :=
  { js with journal := pushEntry js.journal e }

/-- The source-balance write of `transfer`:
`*from_balance = from_balance - balance` (the successful `checked_sub`). -/
def transferSub (js : JournaledState) (from_addr balance : Nat) : JournaledState :=
  { js with
    state := updateAccount js.state from_addr fun a =>
      { a with info := { a.info with balance := a.info.balance - balance } } }

/-- The destination-balance write of `transfer`:
`*to_balance = to_balance + balance` (the successful `checked_add`). -/
def transferAdd (js : JournaledState) (to_addr balance : Nat) : JournaledState :=
  { js with
    state := updateAccount js.state to_addr fun a =>
      { a with info := { a.info with balance := a.info.balance + balance } } }

/-- `JournaledState::transfer` from `journaled_state.rs`: load both accounts,
touch and debit the source (`checked_sub`, failing with `OutOfFund` before
any write), touch and credit the destination (`checked_add`, failing with
`OverflowPayment` — note the source comment: funds are *not* returned to the
source account in that case), then journal `BalanceTransfer`.  The `getD`
reads stand for the source's `unwrap()` on accounts that were just loaded. -/
def JournaledState.transfer (js : JournaledState) (from_addr to_addr balance : Nat)
    (db : Nat → Option AccountInfo) :
    Except InstructionResult (Bool × Bool) × JournaledState :=
  let r1 := js.load_account from_addr db
  let from_is_cold := r1.1.2
  let r2 := r1.2.load_account to_addr db
  let to_is_cold := r2.1.2
  let js3 := r2.2.touch_account from_addr
  let from_account := (js3.state from_addr).getD Account.new_not_existing
  if from_account.info.balance < balance then (.error .OutOfFund, js3)
  else
    let js5 := (transferSub js3 from_addr balance).touch_account to_addr
    let to_account := (js5.state to_addr).getD Account.new_not_existing
    if U256_MOD ≤ to_account.info.balance + balance then (.error .OverflowPayment, js5)
    else
      (.ok (from_is_cold, to_is_cold),
        pushJournal (transferAdd js5 to_addr balance)
          (.BalanceTransfer from_addr to_addr balance))

/-- `JournaledState::set_code`: touch the account, journal
`CodeChange { had_code: code.clone() }` — note that the source clones the
*new* code into `had_code`, not the account's previous code — then install
the new code (and its hash). -/
def JournaledState.set_code (js : JournaledState) (address : Nat) (code : Bytecode) :
    JournaledState :=
  let js2 := pushJournal (js.touch_account address) (.CodeChange address code)
  { js2 with
    state := updateAccount js2.state address fun a =>
      { a with info := { a.info with code := some code } } }

/-- `JournaledState::inc_nonce`: `None` at `u64::MAX`, else touch, journal
`NonceChange`, increment, and return the new nonce. -/
def JournaledState.inc_nonce (js : JournaledState) (address : Nat) :
    Option Nat × JournaledState :=
  let account := (js.state address).getD Account.new_not_existing
  if account.info.nonce = 2 ^ 64 - 1 then (none, js)
  else
    let js1 := js.touch_account address
    let js2 := { js1 with journal := pushEntry js1.journal (.NonceChange address) }
    (some (account.info.nonce + 1),
      { js2 with
        state := updateAccount js2.state address fun a =>
          { a with info := { a.info with nonce := a.info.nonce + 1 } } })

/-- `JournaledState::log`. -/
def JournaledState.log (js : JournaledState) (l : Log) : JournaledState :=
  { js with logs := js.logs ++ [l] }

/-- One step of `journal_revert`: undo a single journal entry.
`PRECOMPILE3` is the address `0x…03 = 3`. -/
def revertEntry (is_spurious_dragon_enabled : Bool)
    (state : Nat → Option Account) (entry : JournalEntry) : Nat → Option Account :=
  match entry with
  | .AccountLoaded address =>
      if is_spurious_dragon_enabled ∧ address = 3 then state
      else Function.update state address none
  | .AccountTouched address =>
      if is_spurious_dragon_enabled ∧ address = 3 then state
      else updateAccount state address fun a =>
        { a with status := { a.status with touched := false } }
  | .AccountDestroyed address target was_destroyed had_balance =>
      let state1 := updateAccount state address fun a =>
        { a with
          status := { a.status with selfdestructed := was_destroyed },
          info := { a.info with balance := a.info.balance + had_balance } }
      if address ≠ target then
        updateAccount state1 target fun a =>
          { a with info := { a.info with balance := a.info.balance - had_balance } }
      else state1
  | .BalanceTransfer from_addr to_addr balance =>
      let state1 := updateAccount state from_addr fun a =>
        { a with info := { a.info with balance := a.info.balance + balance } }
      updateAccount state1 to_addr fun a =>
        { a with info := { a.info with balance := a.info.balance - balance } }
  | .NonceChange address =>
      updateAccount state address fun a =>
        { a with info := { a.info with nonce := a.info.nonce - 1 } }
  | .StorageChange address key had_value =>
      updateAccount state address fun a =>
        { a with storage := fun k =>
            if k = key then
              match had_value with
              | some v => (a.storage key).map fun slot => { slot with present_value := v }
              | none => none
            else a.storage k }
  | .CodeChange address had_code =>
      updateAccount state address fun a =>
        { a with info := { a.info with code := some had_code } }

/-- `JournaledState::journal_revert`: replay one journal set in reverse
(our entry lists are stored newest-first, so a left fold visits entries in
the source's reverse iteration order). -/
def journal_revert (state : Nat → Option Account) (journal_entries : List JournalEntry)
    (is_spurious_dragon_enabled : Bool) : Nat → Option Account :=
  journal_entries.foldl (revertEntry is_spurious_dragon_enabled) state

/-- `JournaledState::checkpoint`: record lengths, bump depth, open a fresh
journal set. -/
def JournaledState.checkpoint (js : JournaledState) :
    JournalCheckpoint × JournaledState :=
  (⟨js.logs.length, js.journal.length⟩,
    { js with depth := js.depth + 1, journal := [] :: js.journal })

/-- `JournaledState::checkpoint_commit`. -/
def JournaledState.checkpoint_commit (js : JournaledState) : JournaledState :=
  { js with depth := js.depth - 1 }

/-- `JournaledState::checkpoint_revert`: revert the newest
`len - checkpoint.journal_i` journal sets (newest first), truncate the logs
and the journal. -/
def JournaledState.checkpoint_revert (js : JournaledState)
    (checkpoint : JournalCheckpoint) : JournaledState :=
  let is_spurious_dragon_enabled := ! js.is_before_spurious_dragon
  let leng := js.journal.length
  { js with
    state := (js.journal.take (leng - checkpoint.journal_i)).foldl
      (fun st cs => journal_revert st cs is_spurious_dragon_enabled) js.state,
    depth := js.depth - 1,
    journal := js.journal.drop (leng - checkpoint.journal_i),
    logs := js.logs.take checkpoint.log_i }

/-- The balance stored at an address, if the address is in state (the view
the transfer claims are about). -/
def balView (js : JournaledState) (x : Nat) : Option Nat :=
  (js.state x).map fun a => a.info.balance

/-- Whether a journal entry is a `BalanceTransfer`. -/
def isBalanceTransfer : JournalEntry → Bool
  | .BalanceTransfer .. => true
  | _ => false

/-- The number of `BalanceTransfer` entries in a journal. -/
def btCount (j : List (List JournalEntry)) : Nat :=
  (j.map fun set => (set.filter isBalanceTransfer).length).sum

/-- The number of `BalanceTransfer` entries recorded by a journaled state. -/
def JournaledState.balanceTransferCount (js : JournaledState) : Nat :=
  btCount js.journal

/-- Concrete database for the C1 counterexample: address 1 holds balance 1,
address 2 holds the maximal balance. -/
def transfer_cex_db : Nat → Option AccountInfo := fun a =>
  if a = 1 then some { balance := 1, nonce := 0, code := none }
  else if a = 2 then some { balance := U256_MAX, nonce := 0, code := none }
  else none

/-- The C1 counterexample run: transfer 1 wei from address 1 to address 2. -/
def transfer_cex_result : Except InstructionResult (Bool × Bool) × JournaledState :=
  (JournaledState.new 3).transfer 1 2 1 transfer_cex_db

/-- The C2 counterexample run: on a *pre*-Spurious-Dragon journaled state,
checkpoint, load the precompile address 3, revert. -/
def precompile3_legacy_run : JournaledState :=
  let cp := (JournaledState.new_legacy 3).checkpoint
  ((cp.2.load_account 3 fun _ => none).2).checkpoint_revert cp.1

/-- Initial state for the C1 amended-theorem witness: address 1 with balance
5, address 2 with balance 7. -/
def transfer_wit_js : JournaledState :=
  { JournaledState.new 3 with
    state := Function.update (Function.update (fun _ => none) 1 (some
      { info := { balance := 5, nonce := 0, code := none },
        storage := fun _ => none, status := ⟨false, false, false, false⟩ })) 2 (some
      { info := { balance := 7, nonce := 0, code := none },
        storage := fun _ => none, status := ⟨false, false, false, false⟩ }) }

/-- The C1 amended-theorem witness run: transfer 2 from address 1 to 2. -/
def transfer_wit_result : Except InstructionResult (Bool × Bool) × JournaledState :=
  transfer_wit_js.transfer 1 2 2 (fun _ => none)

/-- Initial state for the C3 failing input: address 1 holds an account whose
code is `[0xAA]`. -/
def set_code_bug_js0 : JournaledState :=
  { JournaledState.new 3 with
    state := Function.update (fun _ => none) 1 (some
      { info := { balance := 0, nonce := 0, code := some [170] },
        storage := fun _ => none,
        status := ⟨false, false, false, false⟩ }) }

/-- The C3 failing run: checkpoint, `set_code(1, [0xBB])`, revert. -/
def set_code_bug_run : JournaledState :=
  let cp := set_code_bug_js0.checkpoint
  (cp.2.set_code 1 [187]).checkpoint_revert cp.1

/-! ## Supporting lemmas for the signed 256-bit helpers -/

set_option maxRecDepth 8000

theorem U256_MOD_eq : U256_MOD = 2 ^ 256 := rfl

theorem testBit255_eq {x : Nat} (hx : x < U256_MOD) :
    x.testBit 255 = decide (2 ^ 255 ≤ x) := by
  rw [Nat.testBit_to_div_mod, decide_eq_decide]
  rw [U256_MOD_eq] at hx
  omega

theorem i256_sign_zero : i256_sign 0 = .Zero := by decide

theorem i256_sign_pos {x : Nat} (h0 : 0 < x) (h : x < 2 ^ 255) :
    i256_sign x = .Plus := by
  have hx : x < U256_MOD := by rw [U256_MOD_eq]; omega
  rw [i256_sign, testBit255_eq hx]
  simp only [decide_eq_true_eq]
  rw [if_neg (by omega), if_neg (by omega)]

theorem i256_sign_neg {x : Nat} (h : 2 ^ 255 ≤ x) (hx : x < U256_MOD) :
    i256_sign x = .Minus := by
  rw [i256_sign, testBit255_eq hx]
  simp only [decide_eq_true_eq]
  rw [if_pos h]

theorem two_compl_zero : two_compl 0 = 0 := by decide

theorem two_compl_eq {x : Nat} (h0 : 0 < x) (hx : x < U256_MOD) :
    two_compl x = U256_MOD - x := by
  rw [two_compl, U256_MOD_eq] at *
  omega

theorem two_compl_eq_of_lt {x : Nat} (hx : x < 2 ^ 256) :
    two_compl x = (2 ^ 256 - x) % 2 ^ 256 := by
  rw [two_compl, U256_MOD_eq, Nat.mod_eq_of_lt hx]

theorem toI256_pos {x : Nat} (h : x < 2 ^ 255) : toI256 x = (x : Int) := if_pos h

theorem toI256_neg {x : Nat} (h : 2 ^ 255 ≤ x) :
    toI256 x = (x : Int) - 2 ^ 256 := if_neg (by omega)

theorem ofI256_neg_nat {d : Nat} (hd : d < 2 ^ 256) :
    ofI256 (-(d : Int)) = (2 ^ 256 - d) % 2 ^ 256 := by
  rw [ofI256]
  omega

theorem ofI256_neg_eq_two_compl {d : Nat} (hd : d < 2 ^ 256) :
    ofI256 (-(d : Int)) = two_compl d := by
  rw [ofI256_neg_nat hd, two_compl_eq_of_lt hd]

theorem natAbs_toI256_pos {x : Nat} (h : x < 2 ^ 255) : (toI256 x).natAbs = x := by
  rw [toI256_pos h]
  exact Int.natAbs_ofNat x

theorem natAbs_toI256_neg {x : Nat} (h : 2 ^ 255 ≤ x) (hx : x < 2 ^ 256) :
    (toI256 x).natAbs = 2 ^ 256 - x := by
  rw [toI256_neg h]
  omega

/-! Evaluation of `i256_div` on each sign region of its arguments. -/

theorem i256_div_eval_div_zero (a : Nat) : i256_div a 0 = 0 := by
  simp [i256_div, i256_sign_zero]

theorem i256_div_eval_zero_pos {b : Nat} (hbs : b < 2 ^ 255) (hbpos : 0 < b) :
    i256_div 0 b = 0 := by
  have hsb := i256_sign_pos hbpos hbs
  simp only [i256_div, hsb, i256_sign_zero]
  simp [u256_remove_sign, MIN_NEGATIVE_VALUE]

theorem i256_div_eval_pos_pos {a b : Nat} (hbs : b < 2 ^ 255) (hbpos : 0 < b)
    (has : a < 2 ^ 255) (hapos : 0 < a) :
    i256_div a b = a / b := by
  have hsb := i256_sign_pos hbpos hbs
  have hsa := i256_sign_pos hapos has
  simp only [i256_div, hsa, hsb]
  simp only [u256_remove_sign, MIN_NEGATIVE_VALUE]
  simp
  rw [if_neg (by rintro ⟨h1, -⟩; omega)]
  exact Nat.mod_eq_of_lt (lt_of_le_of_lt (Nat.div_le_self a b) has)

theorem i256_div_eval_neg_pos {a b : Nat} (ha : a < 2 ^ 256) (hbs : b < 2 ^ 255)
    (hbpos : 0 < b) (has : 2 ^ 255 ≤ a) (hsp : ¬(a = 2 ^ 255 ∧ b = 1)) :
    i256_div a b = two_compl ((2 ^ 256 - a) / b) := by
  have hsb := i256_sign_pos hbpos hbs
  have hsa := i256_sign_neg has (by rw [U256_MOD_eq]; omega)
  have hf1 : two_compl a = 2 ^ 256 - a := by
    rw [two_compl_eq (by omega) (by rw [U256_MOD_eq]; omega), U256_MOD_eq]
  have hd : (2 ^ 256 - a) / b < 2 ^ 255 := by
    rcases Nat.lt_or_ge b 2 with hb2 | hb2
    · have hb1 : b = 1 := by omega
      subst hb1
      simp only [Nat.div_one]
      rcases Nat.lt_or_ge (2 ^ 255) a with h' | h'
      · omega
      · exact absurd ⟨by omega, rfl⟩ hsp
    · calc (2 ^ 256 - a) / b ≤ (2 ^ 256 - a) / 2 := Nat.div_le_div_left hb2 (by omega)
        _ < 2 ^ 255 := by omega
  simp only [i256_div, hsa, hsb, hf1]
  simp only [u256_remove_sign, MIN_NEGATIVE_VALUE]
  simp
  rw [if_neg (by rintro ⟨h1, h2⟩; exact hsp ⟨by omega, h2⟩)]
  norm_num at hd
  rw [Nat.mod_eq_of_lt hd]

theorem i256_div_eval_min_one : i256_div (2 ^ 255) 1 = 2 ^ 255 := by
  have hsb := i256_sign_pos (show 0 < 1 by norm_num) (by norm_num)
  have hsa := i256_sign_neg (le_refl (2 ^ 255)) (by rw [U256_MOD_eq]; norm_num)
  simp only [i256_div, hsa, hsb]
  simp [MIN_NEGATIVE_VALUE, two_compl, U256_MOD_eq]

theorem i256_div_eval_zero_neg {b : Nat} (hb : b < 2 ^ 256) (hbs : 2 ^ 255 ≤ b) :
    i256_div 0 b = 0 := by
  have hsb := i256_sign_neg hbs (by rw [U256_MOD_eq]; omega)
  simp only [i256_div, hsb, i256_sign_zero]
  simp [u256_remove_sign, MIN_NEGATIVE_VALUE, two_compl]

theorem i256_div_eval_pos_neg {a b : Nat} (hb : b < 2 ^ 256) (hbs : 2 ^ 255 ≤ b)
    (has : a < 2 ^ 255) (hapos : 0 < a) :
    i256_div a b = two_compl (a / (2 ^ 256 - b)) := by
  have hsb := i256_sign_neg hbs (by rw [U256_MOD_eq]; omega)
  have hsa := i256_sign_pos hapos has
  have hs1 : two_compl b = 2 ^ 256 - b := by
    rw [two_compl_eq (by omega) (by rw [U256_MOD_eq]; omega), U256_MOD_eq]
  have hd : a / (2 ^ 256 - b) < 2 ^ 255 := lt_of_le_of_lt (Nat.div_le_self _ _) has
  simp only [i256_div, hsa, hsb, hs1]
  simp only [u256_remove_sign, MIN_NEGATIVE_VALUE]
  simp
  rw [if_neg (by rintro ⟨h1, -⟩; omega)]
  norm_num at hd
  rw [Nat.mod_eq_of_lt hd]

theorem i256_div_eval_neg_neg {a b : Nat} (ha : a < 2 ^ 256) (hb : b < 2 ^ 256)
    (hbs : 2 ^ 255 ≤ b) (has : 2 ^ 255 ≤ a) (hsp : ¬(a = 2 ^ 255 ∧ b = 2 ^ 256 - 1)) :
    i256_div a b = (2 ^ 256 - a) / (2 ^ 256 - b) := by
  have hsb := i256_sign_neg hbs (by rw [U256_MOD_eq]; omega)
  have hsa := i256_sign_neg has (by rw [U256_MOD_eq]; omega)
  have hs1 : two_compl b = 2 ^ 256 - b := by
    rw [two_compl_eq (by omega) (by rw [U256_MOD_eq]; omega), U256_MOD_eq]
  have hf1 : two_compl a = 2 ^ 256 - a := by
    rw [two_compl_eq (by omega) (by rw [U256_MOD_eq]; omega), U256_MOD_eq]
  have hd : (2 ^ 256 - a) / (2 ^ 256 - b) < 2 ^ 255 := by
    rcases Nat.lt_or_ge (2 ^ 256 - b) 2 with hb2 | hb2
    · have hb1 : 2 ^ 256 - b = 1 := by omega
      rw [hb1, Nat.div_one]
      rcases Nat.lt_or_ge (2 ^ 255) a with h' | h'
      · omega
      · exact absurd ⟨by omega, by omega⟩ hsp
    · calc (2 ^ 256 - a) / (2 ^ 256 - b) ≤ (2 ^ 256 - a) / 2 :=
          Nat.div_le_div_left hb2 (by omega)
        _ < 2 ^ 255 := by omega
  simp only [i256_div, hsa, hsb, hs1, hf1]
  simp only [u256_remove_sign, MIN_NEGATIVE_VALUE]
  simp
  rw [if_neg (by rintro ⟨h1, h2⟩; exact hsp ⟨by omega, by omega⟩)]
  norm_num at hd
  rw [Nat.mod_eq_of_lt hd]

theorem i256_div_eval_min_minus_one : i256_div (2 ^ 255) (2 ^ 256 - 1) = 2 ^ 255 := by
  have hsb := i256_sign_neg (show 2 ^ 255 ≤ 2 ^ 256 - 1 by norm_num)
    (by rw [U256_MOD_eq]; norm_num)
  have hsa := i256_sign_neg (le_refl (2 ^ 255)) (by rw [U256_MOD_eq]; norm_num)
  have hs1 : two_compl (2 ^ 256 - 1) = 1 := by
    rw [two_compl_eq (by norm_num) (by rw [U256_MOD_eq]; norm_num), U256_MOD_eq]
    norm_num
  have hf1 : two_compl (2 ^ 255) = 2 ^ 255 := by
    rw [two_compl_eq (by norm_num) (by rw [U256_MOD_eq]; norm_num), U256_MOD_eq]
    norm_num
  simp only [i256_div, hsa, hsb, hs1, hf1]
  simp [MIN_NEGATIVE_VALUE, two_compl, U256_MOD_eq]

/-- **C4.** `i256_div` agrees, on every pair of 256-bit words, with the
spec-side signed-division function `i256_div_spec`: `0` when the divisor is
zero, `MIN` for `MIN / -1`, and otherwise `|a| / |b|` signed by
`sign(a) xor sign(b)`. -/
theorem i256_div_matches_spec (a b : Nat) (ha : a < U256_MOD) (hb : b < U256_MOD) :
    i256_div a b = i256_div_spec a b := by
  rw [U256_MOD_eq] at ha hb
  rcases Nat.lt_or_ge b (2 ^ 255) with hbs | hbs
  · rcases Nat.eq_zero_or_pos b with rfl | hbpos
    · rw [i256_div_eval_div_zero]
      have h0 : toI256 0 = 0 := by rw [toI256_pos (by norm_num)]; norm_num
      rw [i256_div_spec, if_pos h0]
    · have htb := toI256_pos hbs
      have hbne : ¬ toI256 b = 0 := by rw [htb]; exact_mod_cast hbpos.ne'
      have hmne : ¬ (a = MIN_NEGATIVE_VALUE ∧ toI256 b = -1) := by
        rintro ⟨-, hm⟩
        rw [htb] at hm
        omega
      rw [i256_div_spec, if_neg hbne, if_neg hmne, natAbs_toI256_pos hbs]
      rcases Nat.lt_or_ge a (2 ^ 255) with has | has
      · have hta := toI256_pos has
        rw [natAbs_toI256_pos has,
          if_neg (by rw [hta, htb]; rintro (⟨h1, -⟩ | ⟨h1, -⟩) <;> omega)]
        rcases Nat.eq_zero_or_pos a with rfl | hapos
        · rw [i256_div_eval_zero_pos hbs hbpos, Nat.zero_div]
        · exact i256_div_eval_pos_pos hbs hbpos has hapos
      · have hta := toI256_neg has
        rw [natAbs_toI256_neg has ha,
          if_pos (Or.inl ⟨by rw [hta]; omega, by rw [htb]; omega⟩)]
        by_cases hsp : a = 2 ^ 255 ∧ b = 1
        · rcases hsp with ⟨rfl, rfl⟩
          rw [i256_div_eval_min_one, ofI256_neg_eq_two_compl (by norm_num)]
          rw [two_compl_eq (by norm_num) (by rw [U256_MOD_eq]; norm_num), U256_MOD_eq]
          norm_num
        · rw [i256_div_eval_neg_pos ha hbs hbpos has hsp,
            ofI256_neg_eq_two_compl (lt_of_le_of_lt (Nat.div_le_self _ _) (by omega))]
  · have htb := toI256_neg hbs
    have hbne : ¬ toI256 b = 0 := by rw [htb]; omega
    rw [i256_div_spec, if_neg hbne, natAbs_toI256_neg hbs hb]
    rcases Nat.lt_or_ge a (2 ^ 255) with has | has
    · have hta := toI256_pos has
      have hmne : ¬ (a = MIN_NEGATIVE_VALUE ∧ toI256 b = -1) := by
        rintro ⟨h1, -⟩
        rw [MIN_NEGATIVE_VALUE] at h1
        omega
      rw [if_neg hmne, natAbs_toI256_pos has,
        if_pos (Or.inr ⟨by rw [htb]; omega, by rw [hta]; omega⟩)]
      rcases Nat.eq_zero_or_pos a with rfl | hapos
      · rw [i256_div_eval_zero_neg hb hbs, Nat.zero_div,
          ofI256_neg_eq_two_compl (by norm_num), two_compl_zero]
      · rw [i256_div_eval_pos_neg hb hbs has hapos,
          ofI256_neg_eq_two_compl (lt_of_le_of_lt (Nat.div_le_self _ _) (by omega))]
    · have hta := toI256_neg has
      by_cases hsp : a = 2 ^ 255 ∧ b = 2 ^ 256 - 1
      · rcases hsp with ⟨rfl, rfl⟩
        rw [i256_div_eval_min_minus_one,
          if_pos ⟨rfl, by rw [htb]; norm_num⟩, MIN_NEGATIVE_VALUE]
      · have hmne : ¬ (a = MIN_NEGATIVE_VALUE ∧ toI256 b = -1) := by
          rintro ⟨h1, h2⟩
          rw [MIN_NEGATIVE_VALUE] at h1
          rw [htb] at h2
          exact hsp ⟨h1, by omega⟩
        rw [if_neg hmne, natAbs_toI256_neg has ha,
          if_neg (by rw [hta, htb]; rintro (⟨-, h2⟩ | ⟨-, h2⟩) <;> omega)]
        exact i256_div_eval_neg_neg ha hb hbs has hsp

/-- Witness for C4: a concrete instantiation, `SDIV(-8, 2) = -4` on 256-bit
words, checked by evaluating both sides. -/
theorem i256_div_matches_spec_witness :
    (2 ^ 256 - 8) < U256_MOD ∧ (2 : Nat) < U256_MOD ∧
      i256_div (2 ^ 256 - 8) 2 = i256_div_spec (2 ^ 256 - 8) 2 :=
  ⟨by norm_num [U256_MOD], by norm_num [U256_MOD],
    i256_div_matches_spec _ _ (by norm_num [U256_MOD]) (by norm_num [U256_MOD])⟩


theorem ofI256_natCast {n : Nat} (h : n < 2 ^ 256) : ofI256 (n : Int) = n := by
  rw [ofI256]
  omega

theorem ofI256_negSucc {k : Nat} (h : k + 1 < 2 ^ 256) :
    ofI256 (Int.negSucc k) = two_compl (k + 1) := by
  have h1 : Int.negSucc k = -(((k + 1 : Nat) : Int)) := by
    rw [Int.negSucc_eq]
    push_cast
    ring
  rw [h1, ofI256_neg_eq_two_compl h]

theorem toI256_negSucc {x : Nat} (h : 2 ^ 255 ≤ x) (hx : x < 2 ^ 256) :
    toI256 x = Int.negSucc (2 ^ 256 - x - 1) := by
  rw [toI256_neg h, Int.negSucc_eq]
  push_cast
  omega

theorem shl_eval (shift value : Nat) :
    shl shift value = if 256 ≤ shift then 0 else (value <<< shift) % U256_MOD := by
  rcases Nat.lt_or_ge shift (2 ^ 64) with h1 | h1
  · have hs : as_usize_saturated shift = shift := by rw [as_usize_saturated, if_pos h1]
    rw [shl, u256_wrapping_shl, hs]
  · have hs : as_usize_saturated shift = 2 ^ 64 - 1 := by
      rw [as_usize_saturated, if_neg (by omega)]
    rw [shl, u256_wrapping_shl, hs, if_pos (by norm_num), if_pos (by omega)]

theorem shr_eval (shift value : Nat) :
    shr shift value = if 256 ≤ shift then 0 else value >>> shift := by
  rcases Nat.lt_or_ge shift (2 ^ 64) with h1 | h1
  · have hs : as_usize_saturated shift = shift := by rw [as_usize_saturated, if_pos h1]
    rw [shr, u256_wrapping_shr, hs]
  · have hs : as_usize_saturated shift = 2 ^ 64 - 1 := by
      rw [as_usize_saturated, if_neg (by omega)]
    rw [shr, u256_wrapping_shr, hs, if_pos (by norm_num), if_pos (by omega)]

theorem sar_eval (shift value : Nat) (hv : value < U256_MOD) :
    sar shift value = sar_min255_spec shift value := by
  rw [U256_MOD_eq] at hv
  rcases Nat.eq_zero_or_pos value with rfl | hvpos
  · have hz : toI256 0 = 0 := by rw [toI256_pos (by norm_num)]; norm_num
    have h00 : ofI256 0 = 0 := by rw [ofI256]; omega
    simp [sar, i256_sign_zero, sar_min255_spec, hz, Int.zero_shiftRight', h00]
  · rcases Nat.lt_or_ge value (2 ^ 255) with hvs | hvs
    · -- positive value
      have hsv := i256_sign_pos hvpos hvs
      have htv := toI256_pos hvs
      rcases Nat.lt_or_ge shift 255 with hsh | hsh
      · have hmin : min shift 255 = shift := by omega
        rw [sar_min255_spec, hmin, htv, Int.shiftRight_coe_nat,
          ofI256_natCast (by rw [Nat.shiftRight_eq_div_pow]
                             exact lt_of_le_of_lt (Nat.div_le_self _ _) (by omega))]
        simp only [sar, hsv]
        rw [if_neg (by rintro (h | h) <;> simp_all)]
        simp [u256_wrapping_shr]
        omega
      · have hmin : min shift 255 = 255 := by omega
        rw [sar_min255_spec, hmin, htv, Int.shiftRight_coe_nat]
        have h0 : value >>> 255 = 0 := by
          rw [Nat.shiftRight_eq_div_pow]
          omega
        rw [h0, ofI256_natCast (by norm_num)]
        simp only [sar, hsv]
        rw [if_pos (Or.inr hsh)]
    · -- negative value
      have hsv := i256_sign_neg hvs (by rw [U256_MOD_eq]; omega)
      have htv := toI256_negSucc hvs hv
      have hva : 1 ≤ 2 ^ 256 - value ∧ 2 ^ 256 - value ≤ 2 ^ 255 := by omega
      rcases Nat.lt_or_ge shift 255 with hsh | hsh
      · have hmin : min shift 255 = shift := by omega
        have hfl : two_compl value = 2 ^ 256 - value := by
          rw [two_compl_eq (by omega) (by rw [U256_MOD_eq]; omega), U256_MOD_eq]
        have hq : (2 ^ 256 - value - 1) >>> shift + 1 < 2 ^ 256 := by
          rw [Nat.shiftRight_eq_div_pow]
          have := Nat.div_le_self (2 ^ 256 - value - 1) (2 ^ shift)
          omega
        rw [sar_min255_spec, hmin, htv, Int.shiftRight_negSucc, ofI256_negSucc hq]
        simp only [sar, hsv]
        rw [if_neg (by rintro (h | h) <;> simp_all)]
        simp only [reduceIte, hfl]
        have hsub : u256_wrapping_sub (2 ^ 256 - value) 1 = 2 ^ 256 - value - 1 := by
          rw [u256_wrapping_sub, U256_MOD_eq]
          omega
        rw [hsub]
        have hshr : u256_wrapping_shr (2 ^ 256 - value - 1) shift
            = (2 ^ 256 - value - 1) >>> shift := by
          rw [u256_wrapping_shr, if_neg (by omega)]
        rw [hshr]
        rw [u256_wrapping_add, U256_MOD_eq, Nat.mod_eq_of_lt hq]
      · have hmin : min shift 255 = 255 := by omega
        have h0 : (2 ^ 256 - value - 1) >>> 255 = 0 := by
          rw [Nat.shiftRight_eq_div_pow]
          omega
        rw [sar_min255_spec, hmin, htv, Int.shiftRight_negSucc, h0,
          ofI256_negSucc (by norm_num)]
        simp only [sar, hsv]
        rw [if_pos (Or.inr hsh)]
        rw [two_compl_eq (by norm_num) (by rw [U256_MOD_eq]; norm_num)]
        rw [U256_MAX, U256_MOD_eq]


/-- **C6.** For shift counts of 256 or more, SHL and SHR produce 0, and SAR
produces 0 for a non-negative value and the all-ones word for a negative
value. -/
theorem shift_ge256_saturation (shift value : Nat) (hs : 256 ≤ shift)
    (hv : value < U256_MOD) :
    shl shift value = 0 ∧ shr shift value = 0 ∧
      sar shift value = (if 2 ^ 255 ≤ value then U256_MAX else 0) := by
  refine ⟨by rw [shl_eval, if_pos hs], by rw [shr_eval, if_pos hs], ?_⟩
  rw [sar_eval shift value hv, U256_MOD_eq] at *
  have hmin : min shift 255 = 255 := by omega
  rw [sar_min255_spec, hmin]
  rcases Nat.lt_or_ge value (2 ^ 255) with hvs | hvs
  · rw [if_neg (by omega), toI256_pos hvs, Int.shiftRight_coe_nat]
    have h0 : value >>> 255 = 0 := by
      rw [Nat.shiftRight_eq_div_pow]
      omega
    rw [h0]
    exact ofI256_natCast (by norm_num)
  · rw [if_pos hvs, toI256_negSucc hvs hv, Int.shiftRight_negSucc]
    have h0 : (2 ^ 256 - value - 1) >>> 255 = 0 := by
      rw [Nat.shiftRight_eq_div_pow]
      omega
    rw [h0, ofI256_negSucc (by norm_num),
      two_compl_eq (by norm_num) (by rw [U256_MOD_eq]; norm_num), U256_MAX]

theorem shift_ge256_saturation_witness :
    (256 ≤ 300 ∧ (7 : Nat) < U256_MOD) ∧ shl 300 7 = 0 :=
  ⟨⟨by norm_num, by norm_num [U256_MOD]⟩,
    (shift_ge256_saturation 300 7 (by norm_num) (by norm_num [U256_MOD])).1⟩

/-- **C5 counterexample.** SHL does not shift by `min(shift, 255)`: at
shift 256 and value 1 the handler produces 0, while a shift by
`min(256, 255) = 255` would produce `2 ^ 255`. -/
theorem shl_min255_counterexample : shl 256 1 ≠ shl_min255_claim 256 1 := by
  have h1 : shl 256 1 = 0 := by rw [shl_eval, if_pos (by norm_num)]
  have h2 : shl_min255_claim 256 1 = 2 ^ 255 := by
    rw [shl_min255_claim]
    norm_num [Nat.shiftLeft_eq, U256_MOD_eq]
  rw [h1, h2]
  norm_num

/-- **C5 amended.** SHL and SHR shift by the full popped count, producing 0
once the count reaches 256 (the count is not clamped to 255); SAR computes
the two's-complement arithmetic shift, which coincides with shifting by
`min(shift, 255)` with sign fill. -/
theorem shift_handlers_exact (shift value : Nat) (hv : value < U256_MOD) :
    shl shift value = (if 256 ≤ shift then 0 else (value <<< shift) % U256_MOD) ∧
    shr shift value = (if 256 ≤ shift then 0 else value >>> shift) ∧
    sar shift value = sar_min255_spec shift value :=
  ⟨shl_eval shift value, shr_eval shift value, sar_eval shift value hv⟩

theorem shift_handlers_exact_witness :
    (4 : Nat) < U256_MOD ∧ sar 1 4 = sar_min255_spec 1 4 :=
  ⟨by norm_num [U256_MOD], (shift_handlers_exact 1 4 (by norm_num [U256_MOD])).2.2⟩

/-! ## `SIGNEXTEND` lemmas -/

theorem u256_not_low_mask : u256_not (2 ^ 255 - 1) = 2 ^ 255 := by
  rw [u256_not, U256_MAX, U256_MOD_eq]
  decide

theorem lor_two_pow_of_testBit {y i : Nat} (h : y.testBit i = true) :
    y ||| 2 ^ i = y := by
  apply Nat.eq_of_testBit_eq
  intro j
  rw [Nat.testBit_lor]
  by_cases hij : i = j
  · subst hij
    simp [h]
  · simp [Nat.testBit_two_pow_of_ne hij]

/-- **C7.** For every byte index `x ≥ 31`, `SIGNEXTEND(x, y) = y`; in
particular this covers `x = 31`, where the handler still takes the extension
branch but the branch is the identity. -/
theorem signextend_ge31_identity (x y : Nat) (hx : 31 ≤ x) (hy : y < U256_MOD) :
    signextend x y = y := by
  rcases Nat.lt_or_ge x 32 with h32 | h32
  · have hx31 : x = 31 := by omega
    subst hx31
    simp only [signextend, if_pos (by norm_num : (31 : Nat) < 32),
      show (8 * 31 + 7 : Nat) = 255 by norm_num]
    by_cases hb : y.testBit 255
    · rw [if_pos hb, u256_not_low_mask, lor_two_pow_of_testBit hb]
    · rw [if_neg hb, Nat.and_pow_two_sub_one_eq_mod]
      have hlt : y < 2 ^ 255 := by
        rw [Nat.testBit_to_div_mod] at hb
        rw [U256_MOD_eq] at hy
        simp only [decide_eq_true_eq] at hb
        omega
      exact Nat.mod_eq_of_lt hlt
  · rw [signextend, if_neg (by omega)]

theorem signextend_ge31_identity_witness :
    (31 ≤ 31 ∧ (5 : Nat) < U256_MOD) ∧ signextend 31 5 = 5 :=
  ⟨⟨le_refl 31, by norm_num [U256_MOD]⟩,
    signextend_ge31_identity 31 5 (le_refl 31) (by norm_num [U256_MOD])⟩


/-! ## `JUMP` -/

/-- **C8.** The `jump` handler fails with `InvalidJump` exactly when the
popped destination exceeds `usize::MAX`, is not below the code length (the
bitmap length), or has its JUMPDEST bit unset; otherwise it relocates the
instruction pointer to offset `dest`. -/
theorem jump_result (c : Contract) (dest : Nat) :
    jump c dest =
      (if dest ≤ 2 ^ 64 - 1 ∧ dest < c.jump_map.bits.length ∧
          c.jump_map.bits.getD dest false = true then
        .ok dest
      else .error .InvalidJump) := by
  have hval : c.is_valid_jump dest = true ↔
      (dest < c.jump_map.bits.length ∧ c.jump_map.bits.getD dest false = true) := by
    rw [Contract.is_valid_jump, JumpMap.is_valid, Bool.and_eq_true, decide_eq_true_eq]
  by_cases h1 : 2 ^ 64 - 1 < dest
  · rw [jump, if_pos h1, if_neg (by rintro ⟨ha, -⟩; omega)]
  · by_cases h2 : c.is_valid_jump dest = true
    · rw [jump, if_neg h1, if_pos h2, if_pos ⟨by omega, hval.mp h2⟩]
    · rw [jump, if_neg h1, if_neg h2,
        if_neg (by rintro ⟨-, hb, hc⟩; exact h2 (hval.mpr ⟨hb, hc⟩))]

/-! ## Gas refund -/

/-- **C9 counterexample.** With refund accounting enabled, pre-London, a gas
state with `limit = 100`, `remaining = 90` and `refunded = -1` yields a
refund of `spent / 2 = 5`, not `min(refunded, spent / 2) = -1`: the `i64 as
u64` cast sends the negative refund counter to a huge value. -/
theorem calculate_gas_refund_negative_counterexample :
    (calculate_gas_refund false false ⟨100, 90, -1⟩ : Int) ≠
      min (-1 : Int) (((100 : Int) - 90) / 2) := by decide

/-- **C9 amended.** With refund accounting enabled, `calculate_gas_refund`
returns `min(refunded, spent / quotient)` (quotient 5 from London, else 2)
whenever `refunded ≥ 0`; a negative `refunded` is cast `i64 as u64` to a
value at least `2 ^ 63`, so the result is then `spent / quotient`. -/
theorem calculate_gas_refund_semantics (london : Bool) (g : Gas)
    (hrem : g.remaining ≤ g.limit) (hlim : g.limit < 2 ^ 64)
    (hlo : -(2 ^ 63) ≤ g.refunded) (hhi : g.refunded < 2 ^ 63) :
    calculate_gas_refund false london g =
      (if 0 ≤ g.refunded then
        min g.refunded.toNat (g.spend / (if london then 5 else 2))
      else g.spend / (if london then 5 else 2)) := by
  rw [calculate_gas_refund, if_neg (by simp)]
  by_cases hpos : 0 ≤ g.refunded
  · rw [if_pos hpos]
    have hcast : i64_as_u64 g.refunded = g.refunded.toNat := by
      rw [i64_as_u64]
      omega
    rw [hcast]
  · rw [if_neg hpos]
    have hcast : 2 ^ 63 ≤ i64_as_u64 g.refunded := by
      rw [i64_as_u64]
      omega
    rw [Gas.spend] at *
    cases london <;>
      · simp only [Bool.false_eq_true, if_false, if_true]
        apply min_eq_right
        omega

theorem calculate_gas_refund_semantics_witness :
    ((90 : Nat) ≤ 100 ∧ (100 : Nat) < 2 ^ 64 ∧
      -(2 ^ 63) ≤ (3 : Int) ∧ (3 : Int) < 2 ^ 63) ∧
      calculate_gas_refund false true ⟨100, 90, 3⟩ =
        (if (0 : Int) ≤ 3 then min (Int.toNat 3) ((100 - 90) / 5) else (100 - 90) / 5) :=
  ⟨⟨by norm_num, by norm_num, by norm_num, by norm_num⟩,
    calculate_gas_refund_semantics true ⟨100, 90, 3⟩
      (by norm_num) (by norm_num) (by norm_num) (by norm_num)⟩

/-! ## Operand stack -/

/-- **C10.** Every stack operation keeps `0 ≤ len ≤ 1024`: `push` and `dup`
fail with `StackOverflow`, leaving the stack unchanged, exactly when the
result would exceed 1024 elements; `pop`, and `dup`/`swap` with too few
elements, fail with `StackUnderflow`, leaving the stack unchanged, exactly
when fewer elements are present than required. -/
theorem stack_ops_bounds (s : List Nat) (v n : Nat) (hs : s.length ≤ STACK_LIMIT) :
    (((stackPush s v).1 = some .StackOverflow ↔ s.length + 1 > STACK_LIMIT) ∧
      ((stackPush s v).1 = none → (stackPush s v).2 = v :: s) ∧
      ((stackPush s v).1 ≠ none → (stackPush s v).2 = s) ∧
      (stackPush s v).2.length ≤ STACK_LIMIT) ∧
    (((stackPop s).1 = .error .StackUnderflow ↔ s.length < 1) ∧
      ((stackPop s).1 = .error .StackUnderflow → (stackPop s).2 = s) ∧
      (stackPop s).2.length ≤ STACK_LIMIT) ∧
    (((stackDup n s).1 = some .StackUnderflow ↔ s.length < n) ∧
      ((stackDup n s).1 = some .StackOverflow ↔ n ≤ s.length ∧ s.length + 1 > STACK_LIMIT) ∧
      ((stackDup n s).1 ≠ none → (stackDup n s).2 = s) ∧
      (stackDup n s).2.length ≤ STACK_LIMIT) ∧
    (((stackSwap n s).1 = some .StackUnderflow ↔ s.length ≤ n) ∧
      ((stackSwap n s).1 = some .StackUnderflow → (stackSwap n s).2 = s) ∧
      (stackSwap n s).2.length ≤ STACK_LIMIT) := by
  refine ⟨⟨?_, ?_, ?_, ?_⟩, ⟨?_, ?_, ?_⟩, ⟨?_, ?_, ?_, ?_⟩, ⟨?_, ?_, ?_⟩⟩
  · rw [stackPush]
    split_ifs with h <;> simp <;> omega
  · rw [stackPush]
    split_ifs with h <;> simp
  · rw [stackPush]
    split_ifs with h <;> simp
  · rw [stackPush]
    split_ifs with h <;> simp <;> omega
  · cases s <;> simp [stackPop]
  · cases s <;> simp [stackPop]
  · cases s with
    | nil => simp [stackPop, STACK_LIMIT]
    | cons x rest =>
        simp only [stackPop, List.length_cons] at *
        omega
  · rw [stackDup]
    split_ifs with h1 h2 <;> simp <;> omega
  · rw [stackDup]
    split_ifs with h1 h2 <;> simp <;> omega
  · rw [stackDup]
    split_ifs with h1 h2 <;> simp
  · rw [stackDup]
    split_ifs with h1 h2 <;> simp <;> omega
  · rw [stackSwap]
    split_ifs with h <;> simp <;> omega
  · rw [stackSwap]
    split_ifs with h <;> simp
  · rw [stackSwap]
    split_ifs with h <;> simp [List.length_set] <;> omega

theorem stack_ops_bounds_witness :
    ([] : List Nat).length ≤ STACK_LIMIT ∧
      ((stackPush ([] : List Nat) 5).1 = some .StackOverflow ↔
        ([] : List Nat).length + 1 > STACK_LIMIT) :=
  ⟨by simp [STACK_LIMIT], (stack_ops_bounds [] 5 1 (by simp [STACK_LIMIT])).1.1⟩


/-! ## Journaled-state counterexample evaluations -/

/-- **C1 counterexample.** Transferring 1 wei from address 1 (balance 1) to
address 2 (balance `U256::MAX`) fails with `OverflowPayment`, yet the source
balance has been debited from 1 to 0: the claim that no account balance is
mutated in either failure case is false. -/
theorem transfer_overflow_counterexample :
    transfer_cex_result.1 = .error .OverflowPayment ∧
      balView transfer_cex_result.2 1 = some 0 ∧
      (transfer_cex_db 1).map (fun i => i.balance) = some 1 := by
  refine ⟨?_, ?_, ?_⟩ <;> rfl

/-- **C2 counterexample.** On a *pre*-Spurious-Dragon journaled state
(`is_before_spurious_dragon = true`), the `AccountLoaded` entry for the
precompile address 3 *is* reverted: after checkpoint, load of address 3 and
revert, address 3 is no longer present (the skip in `journal_revert` fires
only when `is_spurious_dragon_enabled = !is_before_spurious_dragon`). -/
theorem precompile3_reverted_pre_spurious_dragon :
    ((((JournaledState.new_legacy 3).checkpoint).2.load_account 3
        fun _ => none).2.state 3).isSome = true ∧
      (precompile3_legacy_run.state 3).isSome = false := by
  refine ⟨?_, ?_⟩ <;> rfl

/-- **C3 failing input.** `set_code` journals the *new* code as `had_code`,
so `checkpoint_revert` re-applies it instead of restoring the old code:
starting from an account with code `[0xAA]`, after checkpoint,
`set_code(1, [0xBB])` and revert, the account's code is `[0xBB]`, not the
`[0xAA]` it held when the checkpoint was taken. -/
theorem set_code_revert_not_restored :
    (set_code_bug_js0.state 1).map (fun a => a.info.code) = some (some [170]) ∧
      (set_code_bug_run.state 1).map (fun a => a.info.code) = some (some [187]) := by
  refine ⟨?_, ?_⟩ <;> rfl

/-! ## Journaled-state lemmas -/

theorem touch_account_state_other (js : JournaledState) (a x : Nat) (hx : x ≠ a) :
    (js.touch_account a).state x = js.state x := by
  rcases h : js.state a with - | acc
  · simp only [JournaledState.touch_account, h]
  · simp only [JournaledState.touch_account, h]
    by_cases ht : acc.is_touched
    · rw [if_pos ht]
    · rw [if_neg ht]
      exact Function.update_noteq hx _ _

theorem touch_account_state_self (js : JournaledState) (a : Nat) (acc : Account)
    (h : js.state a = some acc) :
    ∃ acc', (js.touch_account a).state a = some acc' ∧ acc'.info = acc.info := by
  simp only [JournaledState.touch_account, h]
  by_cases ht : acc.is_touched
  · rw [if_pos ht]
    exact ⟨acc, h, rfl⟩
  · rw [if_neg ht]
    refine ⟨acc.touch, ?_, rfl⟩
    show Function.update js.state a (some acc.touch) a = some acc.touch
    exact Function.update_same a _ _

theorem touch_account_balView (js : JournaledState) (a x : Nat) :
    balView (js.touch_account a) x = balView js x := by
  by_cases hx : x = a
  · subst hx
    rcases h : js.state x with - | acc
    · rw [balView, balView]
      simp only [JournaledState.touch_account, h]
    · obtain ⟨acc', hacc', hinfo⟩ := touch_account_state_self js x acc h
      rw [balView, hacc', balView, h]
      simp [hinfo]
  · rw [balView, touch_account_state_other js a x hx, balView]

theorem touch_account_journal (js : JournaledState) (a : Nat) :
    (js.touch_account a).journal = js.journal ∨
      (js.touch_account a).journal = pushEntry js.journal (.AccountTouched a) := by
  rcases h : js.state a with - | acc
  · simp only [JournaledState.touch_account, h]
    exact Or.inl trivial
  · simp only [JournaledState.touch_account, h]
    by_cases ht : acc.is_touched
    · rw [if_pos ht]
      exact Or.inl rfl
    · rw [if_neg ht]
      exact Or.inr rfl

theorem btCount_pushEntry (j : List (List JournalEntry)) (e : JournalEntry) :
    btCount (pushEntry j e) = btCount j + (if isBalanceTransfer e then 1 else 0) := by
  cases j <;> cases he : isBalanceTransfer e <;>
    simp [pushEntry, btCount, List.filter_cons, he] <;> omega

theorem touch_account_btCount (js : JournaledState) (a : Nat) :
    (js.touch_account a).balanceTransferCount = js.balanceTransferCount := by
  rcases touch_account_journal js a with h | h
  · rw [JournaledState.balanceTransferCount, h]
    rfl
  · rw [JournaledState.balanceTransferCount, h, btCount_pushEntry]
    simp [isBalanceTransfer, JournaledState.balanceTransferCount]

theorem updateAccount_self (s : Nat → Option Account) (a : Nat) (f : Account → Account) :
    updateAccount s a f a = (s a).map f :=
  Function.update_same a _ _

theorem updateAccount_other (s : Nat → Option Account) (a : Nat) (f : Account → Account)
    (x : Nat) (hx : x ≠ a) : updateAccount s a f x = s x :=
  Function.update_noteq hx _ _

theorem transferSub_state_other (js : JournaledState) (a balance x : Nat) (hx : x ≠ a) :
    (transferSub js a balance).state x = js.state x :=
  updateAccount_other _ _ _ _ hx

theorem transferSub_balView_self (js : JournaledState) (a balance : Nat) (acc : Account)
    (h : js.state a = some acc) :
    balView (transferSub js a balance) a = some (acc.info.balance - balance) := by
  rw [balView]
  show Option.map _ (updateAccount js.state a _ a) = _
  rw [updateAccount_self, h]
  rfl

theorem transferSub_btCount (js : JournaledState) (a balance : Nat) :
    (transferSub js a balance).balanceTransferCount = js.balanceTransferCount := rfl

theorem transferAdd_state_other (js : JournaledState) (a balance x : Nat) (hx : x ≠ a) :
    (transferAdd js a balance).state x = js.state x :=
  updateAccount_other _ _ _ _ hx

theorem transferAdd_balView_self (js : JournaledState) (a balance : Nat) (acc : Account)
    (h : js.state a = some acc) :
    balView (transferAdd js a balance) a = some (acc.info.balance + balance) := by
  rw [balView]
  show Option.map _ (updateAccount js.state a _ a) = _
  rw [updateAccount_self, h]
  rfl

theorem transferAdd_btCount (js : JournaledState) (a balance : Nat) :
    (transferAdd js a balance).balanceTransferCount = js.balanceTransferCount := rfl

theorem pushJournal_state (js : JournaledState) (e : JournalEntry) :
    (pushJournal js e).state = js.state := rfl

theorem pushJournal_btCount_bt (js : JournaledState) (f t b : Nat) :
    (pushJournal js (.BalanceTransfer f t b)).balanceTransferCount =
      js.balanceTransferCount + 1 := by
  show btCount (pushEntry js.journal _) = btCount js.journal + 1
  rw [btCount_pushEntry]
  simp [isBalanceTransfer]


/-- **C2 amended.** On post-Spurious-Dragon states
(`is_before_spurious_dragon = false`), reverting a checkpoint does not undo
the `AccountLoaded` entry for the precompile address 3: after loading a fresh
address `a` under a checkpoint and reverting, `a` is still present exactly
when `a = 3`; every other freshly loaded address is removed. -/
theorem checkpoint_revert_precompile3_quirk (js : JournaledState)
    (db : Nat → Option AccountInfo) (a : Nat)
    (hsd : js.is_before_spurious_dragon = false) (ha : js.state a = none) :
    ((((js.checkpoint).2.load_account a db).2.checkpoint_revert
        (js.checkpoint).1).state a).isSome = decide (a = 3) := by
  simp only [JournaledState.checkpoint, JournaledState.load_account, ha]
  simp only [JournaledState.checkpoint_revert, pushEntry, hsd]
  simp only [List.length_cons, Nat.add_sub_cancel_left, List.take_succ_cons,
    List.take_zero, List.foldl_cons, List.foldl_nil, journal_revert]
  simp only [revertEntry, Bool.not_false]
  by_cases h3 : a = 3
  · rw [if_pos ⟨by simp, h3⟩]
    rw [show (Function.update js.state a (some (match db a with
      | some info => Account.from_info info
      | none => Account.new_not_existing))) a = some _ from Function.update_same a _ _]
    simp [h3]
  · rw [if_neg (by rintro ⟨-, hc⟩; exact h3 hc)]
    rw [show (Function.update (Function.update js.state a (some (match db a with
      | some info => Account.from_info info
      | none => Account.new_not_existing))) a none) a = none from Function.update_same a _ _]
    simp [h3]

theorem checkpoint_revert_precompile3_quirk_witness :
    ((JournaledState.new 3).is_before_spurious_dragon = false ∧
      (JournaledState.new 3).state 5 = none) ∧
    (((((JournaledState.new 3).checkpoint).2.load_account 5 fun _ => none).2.checkpoint_revert
        ((JournaledState.new 3).checkpoint).1).state 5).isSome = false :=
  ⟨⟨rfl, rfl⟩,
    checkpoint_revert_precompile3_quirk (JournaledState.new 3) (fun _ => none) 5 rfl rfl⟩

/-- **C1 amended.** For a transfer between two distinct addresses present in
state: on balance underflow the call fails with `OutOfFund` and no account
balance is mutated; on overflow of the destination balance it fails with
`OverflowPayment` with every *other* balance unchanged but the source balance
already debited (the funds are not returned); on success the source is
debited, the destination credited, and exactly one `BalanceTransfer` journal
entry is recorded (none is recorded on failure). -/
theorem transfer_semantics (js : JournaledState) (db : Nat → Option AccountInfo)
    (from_addr to_addr balance : Nat) (fa ta : Account)
    (hne : from_addr ≠ to_addr)
    (hf : js.state from_addr = some fa) (ht : js.state to_addr = some ta) :
    (fa.info.balance < balance →
      (js.transfer from_addr to_addr balance db).1 = .error .OutOfFund ∧
      (∀ x, balView (js.transfer from_addr to_addr balance db).2 x = balView js x) ∧
      (js.transfer from_addr to_addr balance db).2.balanceTransferCount =
        js.balanceTransferCount) ∧
    (balance ≤ fa.info.balance → U256_MOD ≤ ta.info.balance + balance →
      (js.transfer from_addr to_addr balance db).1 = .error .OverflowPayment ∧
      balView (js.transfer from_addr to_addr balance db).2 from_addr =
        some (fa.info.balance - balance) ∧
      (∀ x, x ≠ from_addr →
        balView (js.transfer from_addr to_addr balance db).2 x = balView js x) ∧
      (js.transfer from_addr to_addr balance db).2.balanceTransferCount =
        js.balanceTransferCount) ∧
    (balance ≤ fa.info.balance → ta.info.balance + balance < U256_MOD →
      (js.transfer from_addr to_addr balance db).1 = .ok (false, false) ∧
      balView (js.transfer from_addr to_addr balance db).2 from_addr =
        some (fa.info.balance - balance) ∧
      balView (js.transfer from_addr to_addr balance db).2 to_addr =
        some (ta.info.balance + balance) ∧
      (js.transfer from_addr to_addr balance db).2.balanceTransferCount =
        js.balanceTransferCount + 1) := by
  have hl1 : js.load_account from_addr db = ((fa, false), js) := by
    simp only [JournaledState.load_account, hf]
  have hl2 : js.load_account to_addr db = ((ta, false), js) := by
    simp only [JournaledState.load_account, ht]
  obtain ⟨fa', hfa', hfainfo⟩ := touch_account_state_self js from_addr fa hf
  have hsub_to : (transferSub (js.touch_account from_addr) from_addr balance).state to_addr
      = some ta := by
    rw [transferSub_state_other _ _ _ _ (Ne.symm hne),
      touch_account_state_other js from_addr to_addr (Ne.symm hne), ht]
  obtain ⟨ta', hta', htainfo⟩ := touch_account_state_self _ to_addr ta hsub_to
  have hf3 : (js.touch_account from_addr).state from_addr = some fa' := hfa'
  refine ⟨?_, ?_, ?_⟩
  · intro hlt
    have htr : js.transfer from_addr to_addr balance db =
        (.error .OutOfFund, js.touch_account from_addr) := by
      simp only [JournaledState.transfer, hl1, hl2, hfa', Option.getD_some]
      rw [if_pos (by rw [hfainfo]; exact hlt)]
    rw [htr]
    exact ⟨rfl, fun x => touch_account_balView js from_addr x,
      touch_account_btCount js from_addr⟩
  · intro hge hovf
    have htr : js.transfer from_addr to_addr balance db =
        (.error .OverflowPayment,
          (transferSub (js.touch_account from_addr) from_addr balance).touch_account
            to_addr) := by
      simp only [JournaledState.transfer, hl1, hl2, hfa', Option.getD_some]
      rw [if_neg (by rw [hfainfo]; omega), hta', Option.getD_some,
        if_pos (by rw [htainfo]; exact hovf)]
    rw [htr]
    refine ⟨rfl, ?_, ?_, ?_⟩
    · rw [touch_account_balView, transferSub_balView_self _ _ _ _ hf3, hfainfo]
    · intro x hx
      rw [touch_account_balView, balView, transferSub_state_other _ _ _ _ hx, ← balView,
        touch_account_balView]
    · rw [touch_account_btCount, transferSub_btCount, touch_account_btCount]
  · intro hge hok
    have htr : js.transfer from_addr to_addr balance db =
        (.ok (false, false),
          pushJournal
            (transferAdd
              ((transferSub (js.touch_account from_addr) from_addr balance).touch_account
                to_addr) to_addr balance)
            (.BalanceTransfer from_addr to_addr balance)) := by
      simp only [JournaledState.transfer, hl1, hl2, hfa', Option.getD_some]
      rw [if_neg (by rw [hfainfo]; omega), hta', Option.getD_some,
        if_neg (by rw [htainfo]; omega)]
    rw [htr]
    refine ⟨rfl, ?_, ?_, ?_⟩
    · rw [balView, pushJournal_state, transferAdd_state_other _ _ _ _ hne, ← balView,
        touch_account_balView, transferSub_balView_self _ _ _ _ hf3, hfainfo]
    · rw [balView, pushJournal_state, ← balView, transferAdd_balView_self _ _ _ _ hta',
        htainfo]
    · rw [pushJournal_btCount_bt, transferAdd_btCount, touch_account_btCount,
        transferSub_btCount, touch_account_btCount]

/-- Witness for C1 amended: a successful concrete transfer of 2 from address
1 (balance 5) to address 2 (balance 7). -/
theorem transfer_semantics_witness :
    transfer_wit_result.1 = .ok (false, false) ∧
      balView transfer_wit_result.2 1 = some 3 ∧
      balView transfer_wit_result.2 2 = some 9 ∧
      transfer_wit_result.2.balanceTransferCount =
        transfer_wit_js.balanceTransferCount + 1 :=
  (transfer_semantics transfer_wit_js (fun _ => none) 1 2 2
      { info := { balance := 5, nonce := 0, code := none },
        storage := fun _ => none, status := ⟨false, false, false, false⟩ }
      { info := { balance := 7, nonce := 0, code := none },
        storage := fun _ => none, status := ⟨false, false, false, false⟩ }
      (by norm_num) rfl rfl).2.2 (by norm_num) (by norm_num [U256_MOD])

end Revm
